import Mathlib

/-!
Shallow embedding of `src/structured_values/index_allocation.rs` (ntfs crate):
the index-allocation attribute layer that resolves, validates and lazily
streams fixed-size index records.

The file under `src/` contains `NtfsIndexAllocation` (`record_from_vcn`,
`iter`), `NtfsIndexRecords` (`next`, `attach`) and `NtfsIndexRecordsAttached`
(`next`, `detach`).  Its collaborators — the non-resident attribute value
stream, the record parser `NtfsIndexRecord::new` and `Vcn::offset` — live in
other files of the crate and are modelled here from the spec (sections 3, 4.4
and 6): the stream is position/length state with a relative seek that advances
by exactly the requested amount and fails only on a negative target, and the
parser and the VCN offset resolution are abstract oracles bundled in
`FsModel`.
-/

set_option autoImplicit false

deriving instance DecidableEq for Except

/-- Error type, restricted to the constructors this layer produces or
propagates.  `VcnOutOfBoundsInIndexAllocation` and
`VcnMismatchInIndexAllocation` mirror `NtfsError` in the crate; `InvalidSeek`
stands for a failed seek, `External` for any propagated I/O or record-parse
failure. -/
inductive NtfsError where
  | VcnOutOfBoundsInIndexAllocation (position : Nat) (vcn : Int)
  | VcnMismatchInIndexAllocation (position : Nat) (expected : Int) (actual : Int)
  | InvalidSeek (target : Int)
  | External (code : Nat)
deriving DecidableEq

/-- Modelled from the spec: the non-resident attribute value stream (section 2
item 1, section 6).  `position` is the attribute's base position used for
diagnostics, `stream_position` the current byte offset inside the value data,
`len` the total data length. -/
structure NtfsNonResidentAttributeValue where
  position : Nat
  stream_position : Nat
  len : Nat
deriving DecidableEq

/-- Modelled from the spec: relative seek (section 4.2 step 3 advances "by
exactly `index_record_size` bytes via a relative seek"; section 4.1 step 3
shows the position after a seek may be at or beyond the stream's total
length).  The target may exceed `len`; only a negative target fails. -/
def NtfsNonResidentAttributeValue.seek (v : NtfsNonResidentAttributeValue)
    (off : Int) : Except NtfsError NtfsNonResidentAttributeValue :=
  let target : Int := (v.stream_position : Int) + off
  if target < 0 then
    Except.error (NtfsError.InvalidSeek target)
  else
    Except.ok { v with stream_position := target.toNat }

/-- An index record as far as this layer inspects it: only the logical
address (VCN) embedded in its header is examined (spec section 1 non-goals:
"no validation of record contents beyond the logical address embedded in its
header"). -/
structure NtfsIndexRecord where
  vcn : Int
deriving DecidableEq

/-- Modelled from the spec: the external collaborators that need the byte
source (section 6).  `vcnOffset` is `Vcn::offset` (section 4.4: deterministic,
may fail on configuration errors); `newRecord` is `NtfsIndexRecord::new`,
keyed by the stream position the record is parsed at and the record size. -/
structure FsModel where
  vcnOffset : Int → Except NtfsError Int
  newRecord : Nat → Nat → Except NtfsError NtfsIndexRecord

/-- `NtfsIndexAllocation`: wraps one non-resident attribute value stream. -/
structure NtfsIndexAllocation where
  value : NtfsNonResidentAttributeValue
deriving DecidableEq

/-- `NtfsIndexRecords`: a clone of the attribute's stream plus the fixed
record size. -/
structure NtfsIndexRecords where
  value : NtfsNonResidentAttributeValue
  index_record_size : Nat
deriving DecidableEq

/-- `NtfsIndexRecords::new`. -/
def NtfsIndexRecords.new (value : NtfsNonResidentAttributeValue)
    (index_record_size : Nat) : NtfsIndexRecords :=
  { value := value, index_record_size := index_record_size }

/-- `NtfsIndexAllocation::iter`: clones the value and pairs it with the
record size taken from the index root (the index root is external, so the
record size is passed directly). -/
def NtfsIndexAllocation.iter (a : NtfsIndexAllocation)
    (index_record_size : Nat) : NtfsIndexRecords :=
  NtfsIndexRecords.new a.value index_record_size

/-- `NtfsIndexAllocation::record_from_vcn`: seek the cloned stream to the
VCN's byte offset, check bounds, parse one record, check the embedded VCN. -/
def NtfsIndexAllocation.record_from_vcn (a : NtfsIndexAllocation)
    (fs : FsModel) (index_record_size : Nat) (vcn : Int) :
    Except NtfsError NtfsIndexRecord :=
  match fs.vcnOffset vcn with
  | Except.error e => Except.error e
  | Except.ok offset =>
    match a.value.seek offset with
    | Except.error e => Except.error e
    | Except.ok value =>
      if value.len ≤ value.stream_position then
        Except.error (NtfsError.VcnOutOfBoundsInIndexAllocation a.value.position vcn)
      else
        match fs.newRecord value.stream_position index_record_size with
        | Except.error e => Except.error e
        | Except.ok record =>
          if record.vcn ≠ vcn then
            Except.error (NtfsError.VcnMismatchInIndexAllocation
              a.value.position vcn record.vcn)
          else
            Except.ok record

/-- `NtfsIndexRecords::next`: `None` when the position reached the length,
otherwise parse the record at the current position and advance by exactly one
record size; on a parse or seek failure the error is returned as an item and
the stream state is unchanged. -/
def NtfsIndexRecords.next (s : NtfsIndexRecords) (fs : FsModel) :
    Option (Except NtfsError NtfsIndexRecord) × NtfsIndexRecords :=
  if s.value.len ≤ s.value.stream_position then
    (none, s)
  else
    match fs.newRecord s.value.stream_position s.index_record_size with
    | Except.error e => (some (Except.error e), s)
    | Except.ok record =>
      match s.value.seek (s.index_record_size : Int) with
      | Except.error e => (some (Except.error e), s)
      | Except.ok v => (some (Except.ok record), { s with value := v })

/-- `NtfsIndexRecordsAttached`: a record stream bound to a byte source. -/
structure NtfsIndexRecordsAttached where
  fs : FsModel
  index_records : NtfsIndexRecords

/-- `NtfsIndexRecords::attach`. -/
def NtfsIndexRecords.attach (s : NtfsIndexRecords) (fs : FsModel) :
    NtfsIndexRecordsAttached :=
  { fs := fs, index_records := s }

/-- `NtfsIndexRecordsAttached::detach`. -/
def NtfsIndexRecordsAttached.detach (a : NtfsIndexRecordsAttached) :
    NtfsIndexRecords :=
  a.index_records

/-- `<NtfsIndexRecordsAttached as Iterator>::next`: delegates to
`NtfsIndexRecords::next` with the bound byte source. -/
def NtfsIndexRecordsAttached.next (a : NtfsIndexRecordsAttached) :
    Option (Except NtfsError NtfsIndexRecord) × NtfsIndexRecordsAttached :=
  let r := a.index_records.next a.fs
  (r.1, { fs := a.fs, index_records := r.2 })

/-- Fuelled driver: pull repeatedly until `next` returns `none` (or fuel runs
out), collecting the produced items and the final stream state. -/
def NtfsIndexRecords.pullAll (fs : FsModel) :
    Nat → NtfsIndexRecords →
    List (Except NtfsError NtfsIndexRecord) × NtfsIndexRecords
  | 0, s => ([], s)
  | fuel + 1, s =>
    match s.next fs with
    | (none, s1) => ([], s1)
    | (some r, s1) =>
      let rest := NtfsIndexRecords.pullAll fs fuel s1
      (r :: rest.1, rest.2)

/-- Number of pulls the iterator performs on a stream of length `len` with
record size `rs` starting from position 0: the count of multiples of `rs`
strictly below `len`, i.e. `⌈len / rs⌉`. -/
def recordCount (len rs : Nat) : Nat :=
  (len + rs - 1) / rs

/-- Concrete collaborator model: VCN `v` resolves to byte offset `4·v`, the
record parsed at position `p` embeds VCN `p / 4`. -/
def fsModelA : FsModel :=
  { vcnOffset := fun v => Except.ok (v * 4),
    newRecord := fun p _ => Except.ok ⟨(p : Int) / 4⟩ }

/-- Concrete collaborator model whose parser always returns a record stamped
with VCN 99, regardless of position. -/
def fsModel99 : FsModel :=
  { vcnOffset := fun v => Except.ok (v * 4),
    newRecord := fun _ _ => Except.ok ⟨99⟩ }

/-- Concrete collaborator model whose parser always fails. -/
def fsModelErr : FsModel :=
  { vcnOffset := fun v => Except.ok v,
    newRecord := fun _ _ => Except.error (NtfsError.External 7) }

/-- Concrete collaborator model whose parser always succeeds, stamping the
record with the position it was parsed at. -/
def fsModelPos : FsModel :=
  { vcnOffset := fun v => Except.ok v,
    newRecord := fun p _ => Except.ok ⟨(p : Int)⟩ }

/-- Seeking forward by a natural number of bytes always succeeds and adds
exactly that amount to the stream position. -/
lemma seek_nat (v : NtfsNonResidentAttributeValue) (off : Nat) :
    v.seek (off : Int) =
      Except.ok { v with stream_position := v.stream_position + off } := by
  unfold NtfsNonResidentAttributeValue.seek
  have h0 : ¬ ((v.stream_position : Int) + (off : Int) < 0) := by omega
  simp only [h0, if_false]
  have h1 : ((v.stream_position : Int) + (off : Int)).toNat =
      v.stream_position + off := by
    omega
  rw [h1]

/-- An exhausted stream pulls nothing and is unchanged. -/
lemma next_of_exhausted (s : NtfsIndexRecords) (fs : FsModel)
    (h : s.value.len ≤ s.value.stream_position) :
    s.next fs = (none, s) := by
  unfold NtfsIndexRecords.next
  rw [if_pos h]

/-- A pull on a non-exhausted stream whose parse succeeds returns the record
and advances the position by exactly one record size. -/
lemma next_of_parse_ok (s : NtfsIndexRecords) (fs : FsModel)
    (r : NtfsIndexRecord)
    (hlt : s.value.stream_position < s.value.len)
    (hp : fs.newRecord s.value.stream_position s.index_record_size =
      Except.ok r) :
    s.next fs = (some (Except.ok r),
      { s with value :=
          { s.value with stream_position :=
              s.value.stream_position + s.index_record_size } }) := by
  unfold NtfsIndexRecords.next
  rw [if_neg (by omega), hp, seek_nat]

/-- A pull on a non-exhausted stream whose parse fails returns the error as
an item and leaves the stream unchanged. -/
lemma next_of_parse_error (s : NtfsIndexRecords) (fs : FsModel)
    (e : NtfsError)
    (hlt : s.value.stream_position < s.value.len)
    (hp : fs.newRecord s.value.stream_position s.index_record_size =
      Except.error e) :
    s.next fs = (some (Except.error e), s) := by
  unfold NtfsIndexRecords.next
  rw [if_neg (by omega), hp]

/-- C1: whenever `record_from_vcn` returns a record successfully, the
record's embedded VCN equals the requested VCN. -/
theorem record_from_vcn_ok_implies_vcn_eq (a : NtfsIndexAllocation)
    (fs : FsModel) (index_record_size : Nat) (vcn : Int)
    (r : NtfsIndexRecord)
    (h : a.record_from_vcn fs index_record_size vcn = Except.ok r) :
    r.vcn = vcn := by
  unfold NtfsIndexAllocation.record_from_vcn at h
  repeat' split at h
  all_goals simp_all

/-- Witness for C1 at a concrete input: looking up VCN 1 over an 8-byte
stream with record size 4 succeeds and the returned record reports VCN 1. -/
theorem record_from_vcn_ok_implies_vcn_eq_witness :
    NtfsIndexAllocation.record_from_vcn ⟨⟨5, 0, 8⟩⟩ fsModelA 4 1 =
      Except.ok ⟨1⟩ ∧
    NtfsIndexRecord.vcn ⟨1⟩ = 1 :=
  ⟨by decide,
   record_from_vcn_ok_implies_vcn_eq ⟨⟨5, 0, 8⟩⟩ fsModelA 4 1 ⟨1⟩ (by decide)⟩

/-- C2: when the VCN's resolved byte offset lands at or beyond the stream's
total length, `record_from_vcn` fails with the out-of-bounds error carrying
the attribute's base position and the requested VCN — and it does so for
every record parser, i.e. the bounds check fires before any record is
parsed. -/
theorem record_from_vcn_out_of_bounds (a : NtfsIndexAllocation) (fs : FsModel)
    (index_record_size : Nat) (vcn : Int) (off : Int)
    (v : NtfsNonResidentAttributeValue)
    (hvo : fs.vcnOffset vcn = Except.ok off)
    (hseek : a.value.seek off = Except.ok v)
    (hoob : v.len ≤ v.stream_position) :
    a.record_from_vcn fs index_record_size vcn =
      Except.error
        (NtfsError.VcnOutOfBoundsInIndexAllocation a.value.position vcn) ∧
    ∀ g : Nat → Nat → Except NtfsError NtfsIndexRecord,
      NtfsIndexAllocation.record_from_vcn a ⟨fs.vcnOffset, g⟩
          index_record_size vcn =
        Except.error
          (NtfsError.VcnOutOfBoundsInIndexAllocation a.value.position vcn) := by
  constructor
  · simp only [NtfsIndexAllocation.record_from_vcn, hvo, hseek]
    rw [if_pos hoob]
  · intro g
    simp only [NtfsIndexAllocation.record_from_vcn, hvo, hseek]
    rw [if_pos hoob]

/-- Witness for C2: VCN 2 resolves to offset 8 on an 8-byte stream, at the
total length, and the lookup fails with the out-of-bounds error. -/
theorem record_from_vcn_out_of_bounds_witness :
    fsModelA.vcnOffset 2 = Except.ok 8 ∧
    NtfsNonResidentAttributeValue.seek ⟨5, 0, 8⟩ 8 = Except.ok ⟨5, 8, 8⟩ ∧
    (8 : Nat) ≤ 8 ∧
    NtfsIndexAllocation.record_from_vcn ⟨⟨5, 0, 8⟩⟩ fsModelA 4 2 =
      Except.error (NtfsError.VcnOutOfBoundsInIndexAllocation 5 2) :=
  ⟨by decide, by decide, by decide,
   (record_from_vcn_out_of_bounds ⟨⟨5, 0, 8⟩⟩ fsModelA 4 2 8 ⟨5, 8, 8⟩
     (by decide) (by decide) (by decide)).1⟩

/-- C3: when the VCN resolves within bounds and the record parses but embeds
a different VCN, `record_from_vcn` fails with the mismatch error carrying the
base position, the requested VCN and the embedded VCN. -/
theorem record_from_vcn_mismatch (a : NtfsIndexAllocation) (fs : FsModel)
    (index_record_size : Nat) (vcn : Int) (off : Int)
    (v : NtfsNonResidentAttributeValue) (r : NtfsIndexRecord)
    (hvo : fs.vcnOffset vcn = Except.ok off)
    (hseek : a.value.seek off = Except.ok v)
    (hin : v.stream_position < v.len)
    (hparse : fs.newRecord v.stream_position index_record_size = Except.ok r)
    (hne : r.vcn ≠ vcn) :
    a.record_from_vcn fs index_record_size vcn =
      Except.error
        (NtfsError.VcnMismatchInIndexAllocation a.value.position vcn r.vcn) := by
  simp only [NtfsIndexAllocation.record_from_vcn, hvo, hseek, hparse]
  rw [if_neg (by omega), if_pos hne]

/-- Witness for C3: a parser that stamps every record with VCN 99 makes the
lookup of VCN 1 fail with the mismatch error, expected 1, actual 99. -/
theorem record_from_vcn_mismatch_witness :
    fsModel99.vcnOffset 1 = Except.ok 4 ∧
    NtfsNonResidentAttributeValue.seek ⟨5, 0, 8⟩ 4 = Except.ok ⟨5, 4, 8⟩ ∧
    (4 : Nat) < 8 ∧
    fsModel99.newRecord 4 4 = Except.ok ⟨99⟩ ∧
    (99 : Int) ≠ 1 ∧
    NtfsIndexAllocation.record_from_vcn ⟨⟨5, 0, 8⟩⟩ fsModel99 4 1 =
      Except.error (NtfsError.VcnMismatchInIndexAllocation 5 1 99) :=
  ⟨by decide, by decide, by decide, by decide, by decide,
   record_from_vcn_mismatch ⟨⟨5, 0, 8⟩⟩ fsModel99 4 1 4 ⟨5, 4, 8⟩ ⟨99⟩
     (by decide) (by decide) (by decide) (by decide) (by decide)⟩

/-- C10: the bounds check of `record_from_vcn` tests only the record's
starting offset.  When the resolved offset is strictly below the length but
the record would extend past the end (offset + record size exceeds the
length), the lookup does not take the out-of-bounds branch: its result is
exactly the parse-then-identity-check remainder, a record straddling the end
of the allocated range. -/
theorem record_from_vcn_straddles_end (a : NtfsIndexAllocation) (fs : FsModel)
    (index_record_size : Nat) (vcn : Int) (off : Int)
    (v : NtfsNonResidentAttributeValue)
    (hvo : fs.vcnOffset vcn = Except.ok off)
    (hseek : a.value.seek off = Except.ok v)
    (hin : v.stream_position < v.len)
    (hstraddle : v.len < v.stream_position + index_record_size) :
    a.record_from_vcn fs index_record_size vcn =
      (match fs.newRecord v.stream_position index_record_size with
       | Except.error e => Except.error e
       | Except.ok record =>
         if record.vcn ≠ vcn then
           Except.error (NtfsError.VcnMismatchInIndexAllocation
             a.value.position vcn record.vcn)
         else
           Except.ok record) := by
  simp only [NtfsIndexAllocation.record_from_vcn, hvo, hseek]
  rw [if_neg (by omega)]

/-- Witness for C10: on a 6-byte stream with record size 4, VCN 1 resolves to
offset 4 (in bounds, but 4 + 4 > 6); the lookup parses the straddling record
and returns it instead of reporting out-of-bounds. -/
theorem record_from_vcn_straddles_end_witness :
    (4 : Nat) < 6 ∧ (6 : Nat) < 4 + 4 ∧
    NtfsIndexAllocation.record_from_vcn ⟨⟨5, 0, 6⟩⟩ fsModelA 4 1 =
      (match fsModelA.newRecord 4 4 with
       | Except.error e => Except.error e
       | Except.ok record =>
         if record.vcn ≠ 1 then
           Except.error (NtfsError.VcnMismatchInIndexAllocation 5 1 record.vcn)
         else
           Except.ok record) :=
  ⟨by decide, by decide,
   record_from_vcn_straddles_end ⟨⟨5, 0, 6⟩⟩ fsModelA 4 1 4 ⟨5, 4, 6⟩
     (by decide) (by decide) (by decide) (by decide)⟩

/-- The record count of an empty remainder is zero. -/
lemma recordCount_zero (rs : Nat) (hrs : 0 < rs) : recordCount 0 rs = 0 := by
  unfold recordCount
  exact Nat.div_eq_of_lt (by omega)

/-- Peeling one record off a non-empty remainder. -/
lemma recordCount_step (m rs : Nat) (hrs : 0 < rs) (hm : 0 < m) :
    recordCount m rs = recordCount (m - rs) rs + 1 := by
  unfold recordCount
  rcases le_or_lt m rs with h | h
  · have h0 : m - rs = 0 := by omega
    rw [h0]
    have h1 : (0 + rs - 1) / rs = 0 := Nat.div_eq_of_lt (by omega)
    rw [h1]
    exact Nat.div_eq_of_lt_le (by omega) (by omega)
  · have h2 : m - rs + rs - 1 = m - 1 := by omega
    have h3 : m + rs - 1 = m - 1 + rs := by omega
    rw [h2, h3, Nat.add_div_right _ hrs]


/-- When the record size divides the length, the pull count is exactly the
quotient. -/
lemma recordCount_of_dvd (len rs : Nat) (hrs : 0 < rs) (hdvd : rs ∣ len) :
    recordCount len rs = len / rs := by
  rcases hdvd with ⟨k, hk⟩
  subst hk
  unfold recordCount
  rw [Nat.add_sub_assoc (by omega : 1 ≤ rs) (rs * k), Nat.mul_add_div hrs,
    Nat.div_eq_of_lt (by omega : rs - 1 < rs), Nat.mul_div_cancel_left _ hrs]
  omega

/-- The pull count times the record size covers the whole length. -/
lemma recordCount_mul_ge (len rs : Nat) (hrs : 0 < rs) :
    len ≤ recordCount len rs * rs := by
  unfold recordCount
  have h1 := Nat.div_add_mod (len + rs - 1) rs
  have h2 := Nat.mod_lt (len + rs - 1) hrs
  rw [Nat.mul_comm rs ((len + rs - 1) / rs)] at h1
  generalize hM : (len + rs - 1) % rs = M at h1 h2
  generalize hX : (len + rs - 1) / rs * rs = X at h1 ⊢
  omega

/-- Unfolding equation: zero fuel. -/
lemma pullAll_zero (fs : FsModel) (s : NtfsIndexRecords) :
    NtfsIndexRecords.pullAll fs 0 s = ([], s) := rfl

/-- Unfolding equation: positive fuel performs one `next` step. -/
lemma pullAll_succ (fs : FsModel) (fuel : Nat) (s : NtfsIndexRecords) :
    NtfsIndexRecords.pullAll fs (fuel + 1) s =
      (match s.next fs with
       | (none, s1) => ([], s1)
       | (some r, s1) =>
         (r :: (NtfsIndexRecords.pullAll fs fuel s1).1,
          (NtfsIndexRecords.pullAll fs fuel s1).2)) := rfl

/-- Full behaviour of the fuelled driver when every parse succeeds: the items
are exactly the parser's answers at positions `pos, pos + rs, pos + 2·rs, …`,
one per record still ahead, and the final position sits one stride past the
last record. -/
lemma pullAll_spec (fs : FsModel) (rs : Nat) (hrs : 0 < rs)
    (hok : ∀ p, ∃ r, fs.newRecord p rs = Except.ok r) :
    ∀ (fuel : Nat) (s : NtfsIndexRecords), s.index_record_size = rs →
      recordCount (s.value.len - s.value.stream_position) rs ≤ fuel →
      (NtfsIndexRecords.pullAll fs fuel s).1 =
        (List.range (recordCount (s.value.len - s.value.stream_position) rs)).map
          (fun i => fs.newRecord (s.value.stream_position + i * rs) rs) ∧
      (NtfsIndexRecords.pullAll fs fuel s).2.value.stream_position =
        s.value.stream_position +
          recordCount (s.value.len - s.value.stream_position) rs * rs ∧
      (NtfsIndexRecords.pullAll fs fuel s).2.value.len = s.value.len ∧
      (NtfsIndexRecords.pullAll fs fuel s).2.index_record_size = rs := by
  intro fuel
  induction fuel with
  | zero =>
    intro s hsize hfuel
    have h0 : recordCount (s.value.len - s.value.stream_position) rs = 0 := by
      omega
    rw [h0]
    simp [pullAll_zero, hsize]
  | succ fuel ih =>
    intro s hsize hfuel
    rcases le_or_lt s.value.len s.value.stream_position with hex | hlt
    · have h0 : s.value.len - s.value.stream_position = 0 := by omega
      rw [h0, recordCount_zero rs hrs]
      rw [pullAll_succ, next_of_exhausted s fs hex]
      simp [hsize]
    · obtain ⟨r, hr⟩ := hok s.value.stream_position
      have hr2 : fs.newRecord s.value.stream_position s.index_record_size =
          Except.ok r := by rw [hsize]; exact hr
      have hnext := next_of_parse_ok s fs r hlt hr2
      have hcount : recordCount (s.value.len - s.value.stream_position) rs =
          recordCount (s.value.len - (s.value.stream_position + rs)) rs + 1 := by
        have hstep := recordCount_step (s.value.len - s.value.stream_position)
          rs hrs (by omega)
        have heq : s.value.len - s.value.stream_position - rs =
            s.value.len - (s.value.stream_position + rs) := by omega
        rw [heq] at hstep
        exact hstep
      set s1 : NtfsIndexRecords :=
        { s with value :=
            { s.value with stream_position :=
                s.value.stream_position + s.index_record_size } } with hs1
      have h1 : NtfsIndexRecords.pullAll fs (fuel + 1) s =
          (Except.ok r :: (NtfsIndexRecords.pullAll fs fuel s1).1,
            (NtfsIndexRecords.pullAll fs fuel s1).2) := by
        rw [pullAll_succ, hnext]
      obtain ⟨ih1, ih2, ih3, ih4⟩ := ih s1 (by simp [hs1, hsize])
        (by simp only [hs1, hsize]; omega)
      refine ⟨?_, ?_, ?_, ?_⟩
      · rw [h1]
        simp only
        rw [ih1, hcount, List.range_succ_eq_map, List.map_cons, List.map_map]
        simp only [hs1, hsize]
        congr 1
        · rw [Nat.zero_mul, Nat.add_zero, hr]
        · apply List.map_congr_left
          intro i _
          simp only [Function.comp, Nat.succ_eq_add_one]
          have hoff : s.value.stream_position + rs + i * rs =
              s.value.stream_position + (i + 1) * rs := by ring
          rw [hoff]
      · rw [h1]
        simp only
        rw [ih2, hcount]
        simp only [hs1, hsize]
        ring
      · rw [h1]
        simp only
        rw [ih3]
      · rw [h1]
        simp only
        exact ih4

/-- Counterexample to C4 as stated: over a stream of length 3 with record
size 2 (the record size does not divide the length), pulling from position 0
until `next` returns `none` terminates after 2 record items — positions 0 and
2 are both strictly below the length — not after `floor(3 / 2) = 1`. -/
theorem next_count_floor_counterexample :
    (NtfsIndexRecords.pullAll fsModelPos 10
        (NtfsIndexRecords.mk ⟨0, 0, 3⟩ 2)).1.length = 2 ∧
    (NtfsIndexRecords.pullAll fsModelPos 10
        (NtfsIndexRecords.mk ⟨0, 0, 3⟩ 2)).2.next fsModelPos =
      (none, (NtfsIndexRecords.pullAll fsModelPos 10
        (NtfsIndexRecords.mk ⟨0, 0, 3⟩ 2)).2) ∧
    (3 : Nat) / 2 = 1 ∧ (2 : Nat) ≠ 1 := by
  decide

/-- C4 (amended): pulling repeatedly from position 0 until `next` returns
`none`, with every parse succeeding, yields exactly `⌈length / record_size⌉`
record items, the i-th parsed at byte offset `i * record_size` (so attempted
offsets strictly increase by one record size); the count equals
`floor(length / record_size)` exactly when the record size divides the
length. -/
theorem next_visits_all_records (fs : FsModel) (s : NtfsIndexRecords)
    (rs fuel : Nat) (hrs : 0 < rs) (hsize : s.index_record_size = rs)
    (hpos : s.value.stream_position = 0)
    (hok : ∀ p, ∃ r, fs.newRecord p rs = Except.ok r)
    (hfuel : recordCount s.value.len rs ≤ fuel) :
    (NtfsIndexRecords.pullAll fs fuel s).1 =
      (List.range (recordCount s.value.len rs)).map
        (fun i => fs.newRecord (i * rs) rs) ∧
    (NtfsIndexRecords.pullAll fs fuel s).2.next fs =
      (none, (NtfsIndexRecords.pullAll fs fuel s).2) ∧
    (rs ∣ s.value.len → recordCount s.value.len rs = s.value.len / rs) := by
  obtain ⟨h1, h2, h3, h4⟩ := pullAll_spec fs rs hrs hok fuel s hsize
    (by rw [hpos, Nat.sub_zero]; exact hfuel)
  rw [hpos, Nat.sub_zero] at h1 h2
  refine ⟨?_, ?_, fun hd => recordCount_of_dvd _ _ hrs hd⟩
  · rw [h1]
    apply List.map_congr_left
    intro i _
    rw [Nat.zero_add]
  · apply next_of_exhausted
    rw [h2, h3, Nat.zero_add]
    exact recordCount_mul_ge s.value.len rs hrs

/-- Witness for C4 (amended) on an 8-byte stream with record size 4: two
records are pulled, at offsets 0 and 4, then `next` returns `none`, and the
count agrees with the exact quotient. -/
theorem next_visits_all_records_witness :
    (0 : Nat) < 4 ∧
    recordCount 8 4 ≤ 3 ∧
    ((NtfsIndexRecords.pullAll fsModelPos 3 (NtfsIndexRecords.mk ⟨0, 0, 8⟩ 4)).1 =
      (List.range (recordCount 8 4)).map
        (fun i => fsModelPos.newRecord (i * 4) 4) ∧
     (NtfsIndexRecords.pullAll fsModelPos 3
        (NtfsIndexRecords.mk ⟨0, 0, 8⟩ 4)).2.next fsModelPos =
      (none, (NtfsIndexRecords.pullAll fsModelPos 3
        (NtfsIndexRecords.mk ⟨0, 0, 8⟩ 4)).2) ∧
     ((4 : Nat) ∣ 8 → recordCount 8 4 = 8 / 4)) :=
  ⟨by decide, by decide,
   next_visits_all_records fsModelPos (NtfsIndexRecords.mk ⟨0, 0, 8⟩ 4) 4 3
     (by decide) rfl rfl (fun p => ⟨⟨(p : Int)⟩, rfl⟩) (by decide)⟩

/-- Counterexample to C5 as stated: starting from a freshly constructed
stream over length 3 with record size 2, two successful pulls leave the
position at 4, outside `[0, length]`. -/
theorem position_invariant_counterexample :
    ((NtfsIndexAllocation.iter ⟨⟨0, 0, 3⟩⟩ 2).next fsModelPos).1 =
      some (Except.ok ⟨0⟩) ∧
    ((((NtfsIndexAllocation.iter ⟨⟨0, 0, 3⟩⟩ 2).next fsModelPos).2).next
        fsModelPos).1 = some (Except.ok ⟨2⟩) ∧
    ¬ (((((NtfsIndexAllocation.iter ⟨⟨0, 0, 3⟩⟩ 2).next fsModelPos).2).next
          fsModelPos).2.value.stream_position ≤
        ((((NtfsIndexAllocation.iter ⟨⟨0, 0, 3⟩⟩ 2).next fsModelPos).2).next
          fsModelPos).2.value.len) := by
  decide

/-- C5 (amended): the stream position is always a multiple of the record
size and always strictly below length + record size — hence within
`[0, length]` whenever the record size divides the length.  The invariant is
established at construction (position 0) and preserved by every successful
pull, which advances the position by exactly one record size. -/
theorem position_invariant (a : NtfsIndexAllocation) (fs : FsModel)
    (rs : Nat) (s s1 : NtfsIndexRecords) (r : NtfsIndexRecord)
    (hrs : 0 < rs) (ha : a.value.stream_position = 0)
    (hsize : s.index_record_size = rs)
    (hmod : s.value.stream_position % rs = 0)
    (hub : s.value.stream_position < s.value.len + rs)
    (hstep : s.next fs = (some (Except.ok r), s1)) :
    ((a.iter rs).value.stream_position % rs = 0 ∧
     (a.iter rs).value.stream_position < (a.iter rs).value.len + rs) ∧
    (s1.value.stream_position % rs = 0 ∧
     s1.value.stream_position < s1.value.len + rs) ∧
    s1.value.stream_position = s.value.stream_position + rs ∧
    (rs ∣ s1.value.len → s1.value.stream_position ≤ s1.value.len) := by
  have hlt : s.value.stream_position < s.value.len := by
    by_contra hge
    rw [next_of_exhausted s fs (by omega)] at hstep
    simp at hstep
  have hstep2 := hstep
  rcases hp : fs.newRecord s.value.stream_position s.index_record_size with e | record
  · rw [next_of_parse_error s fs e hlt hp] at hstep2
    simp at hstep2
  · rw [next_of_parse_ok s fs record hlt hp] at hstep2
    rw [Prod.mk.injEq] at hstep2
    obtain ⟨he1, he2⟩ := hstep2
    subst he2
    refine ⟨⟨?_, ?_⟩, ⟨?_, ?_⟩, ?_, ?_⟩
    · simp [NtfsIndexAllocation.iter, NtfsIndexRecords.new, ha]
    · simp [NtfsIndexAllocation.iter, NtfsIndexRecords.new, ha]
      omega
    · simp only [hsize]
      rw [Nat.add_mod_right]
      exact hmod
    · simp only [hsize]
      omega
    · simp only [hsize]
    · intro hdvd
      simp only [hsize] at hdvd ⊢
      obtain ⟨k, hk⟩ := hdvd
      obtain ⟨q, hq⟩ := Nat.dvd_of_mod_eq_zero hmod
      have h1 : rs * q < rs * k := by rw [← hq, ← hk]; exact hlt
      have h2 : q < k := Nat.lt_of_mul_lt_mul_left h1
      calc s.value.stream_position + rs = rs * (q + 1) := by rw [hq]; ring
        _ ≤ rs * k := Nat.mul_le_mul_left rs h2
        _ = s.value.len := hk.symm

/-- Witness for C5 (amended): one successful pull on an 8-byte stream with
record size 4 moves the position from 0 to 4, keeping it a multiple of 4 and
within bounds. -/
theorem position_invariant_witness :
    (0 : Nat) < 4 ∧
    (NtfsIndexRecords.mk ⟨0, 0, 8⟩ 4).next fsModelPos =
      (some (Except.ok ⟨0⟩), NtfsIndexRecords.mk ⟨0, 4, 8⟩ 4) ∧
    (((NtfsIndexAllocation.iter ⟨⟨0, 0, 8⟩⟩ 4).value.stream_position % 4 = 0 ∧
      (NtfsIndexAllocation.iter ⟨⟨0, 0, 8⟩⟩ 4).value.stream_position <
        (NtfsIndexAllocation.iter ⟨⟨0, 0, 8⟩⟩ 4).value.len + 4) ∧
     ((NtfsIndexRecords.mk ⟨0, 4, 8⟩ 4).value.stream_position % 4 = 0 ∧
      (NtfsIndexRecords.mk ⟨0, 4, 8⟩ 4).value.stream_position <
        (NtfsIndexRecords.mk ⟨0, 4, 8⟩ 4).value.len + 4) ∧
     (NtfsIndexRecords.mk ⟨0, 4, 8⟩ 4).value.stream_position =
       (NtfsIndexRecords.mk ⟨0, 0, 8⟩ 4).value.stream_position + 4 ∧
     ((4 : Nat) ∣ (NtfsIndexRecords.mk ⟨0, 4, 8⟩ 4).value.len →
       (NtfsIndexRecords.mk ⟨0, 4, 8⟩ 4).value.stream_position ≤
         (NtfsIndexRecords.mk ⟨0, 4, 8⟩ 4).value.len)) :=
  ⟨by decide, by decide,
   position_invariant ⟨⟨0, 0, 8⟩⟩ fsModelPos 4 (NtfsIndexRecords.mk ⟨0, 0, 8⟩ 4)
     (NtfsIndexRecords.mk ⟨0, 4, 8⟩ 4) ⟨0⟩ (by decide) rfl rfl (by decide)
     (by decide) (by decide)⟩

/-- C6: a pull whose record construction fails returns the error as an item
— it does not silently stop — and leaves the stream state unchanged, so an
immediate retry repeats the exact same failure; the position is advanced only
after a record parses successfully. -/
theorem next_parse_failure_keeps_position (s : NtfsIndexRecords)
    (fs : FsModel) (e : NtfsError)
    (hlt : s.value.stream_position < s.value.len)
    (hp : fs.newRecord s.value.stream_position s.index_record_size =
      Except.error e) :
    s.next fs = (some (Except.error e), s) ∧
    ((s.next fs).2).next fs = (some (Except.error e), s) := by
  have h := next_of_parse_error s fs e hlt hp
  exact ⟨h, by rw [h]; exact h⟩

/-- Witness for C6: with an always-failing parser, a pull on a fresh 8-byte
stream returns the error and the retried pull fails identically. -/
theorem next_parse_failure_keeps_position_witness :
    (0 : Nat) < 8 ∧
    fsModelErr.newRecord 0 4 = Except.error (NtfsError.External 7) ∧
    ((NtfsIndexRecords.mk ⟨0, 0, 8⟩ 4).next fsModelErr =
      (some (Except.error (NtfsError.External 7)),
        NtfsIndexRecords.mk ⟨0, 0, 8⟩ 4) ∧
     (((NtfsIndexRecords.mk ⟨0, 0, 8⟩ 4).next fsModelErr).2).next fsModelErr =
      (some (Except.error (NtfsError.External 7)),
        NtfsIndexRecords.mk ⟨0, 0, 8⟩ 4)) :=
  ⟨by decide, by decide,
   next_parse_failure_keeps_position (NtfsIndexRecords.mk ⟨0, 0, 8⟩ 4)
     fsModelErr (NtfsError.External 7) (by decide) (by decide)⟩

/-- C7: exhaustion is permanent and idempotent — once the position is at or
beyond the length, `next` returns `none` and leaves the stream unchanged, an
attach immediately detached returns the same exhausted stream, and the
attached adapter's `next` also returns `none` with the adapter unchanged. -/
theorem next_exhausted_forever (s : NtfsIndexRecords) (fs fs2 : FsModel)
    (hex : s.value.len ≤ s.value.stream_position) :
    s.next fs = (none, s) ∧
    (s.attach fs2).detach = s ∧
    (s.attach fs2).next = (none, s.attach fs2) := by
  refine ⟨next_of_exhausted s fs hex, rfl, ?_⟩
  unfold NtfsIndexRecordsAttached.next
  simp only [NtfsIndexRecords.attach]
  rw [next_of_exhausted s fs2 hex]

/-- Witness for C7: a stream at position 4 over length 3 is exhausted; `next`
returns `none` directly and through an attach/detach cycle. -/
theorem next_exhausted_forever_witness :
    (3 : Nat) ≤ 4 ∧
    ((NtfsIndexRecords.mk ⟨0, 4, 3⟩ 2).next fsModelPos =
      (none, NtfsIndexRecords.mk ⟨0, 4, 3⟩ 2) ∧
     ((NtfsIndexRecords.mk ⟨0, 4, 3⟩ 2).attach fsModelErr).detach =
       NtfsIndexRecords.mk ⟨0, 4, 3⟩ 2 ∧
     ((NtfsIndexRecords.mk ⟨0, 4, 3⟩ 2).attach fsModelErr).next =
       (none, (NtfsIndexRecords.mk ⟨0, 4, 3⟩ 2).attach fsModelErr)) :=
  ⟨by decide,
   next_exhausted_forever (NtfsIndexRecords.mk ⟨0, 4, 3⟩ 2) fsModelPos
     fsModelErr (by decide)⟩

/-- C8: attach followed immediately by detach is the identity on the record
stream — position and record size are both unchanged. -/
theorem attach_then_detach_id (s : NtfsIndexRecords) (fs : FsModel) :
    (s.attach fs).detach = s :=
  rfl

/-- C9: the attached adapter's parameterless `next` returns exactly what the
wrapped record stream's `next` returns when given the bound byte source, puts
the wrapped stream into the same resulting state, and keeps the same byte
source bound. -/
theorem attached_next_delegates (a : NtfsIndexRecordsAttached) :
    a.next.1 = (a.index_records.next a.fs).1 ∧
    a.next.2.index_records = (a.index_records.next a.fs).2 ∧
    a.next.2.fs = a.fs :=
  ⟨rfl, rfl, rfl⟩
